import Mathlib

/-!
Verification of the SQL-review workflow transition views in
`sql/sql_workflow.py` (Archery). Each Django view is embedded as a pure
function from a form request, an environment of external-collaborator
oracles (audit gateway, schedule registry, guard predicates, ORM lookups,
wall clock) and the workflow row's state, to an outcome (rendered error
page, redirect, JSON response, or unhandled exception), the committed
workflow state, and the list of committed external-effect events in the
order they were performed.  `transaction.atomic` blocks are embedded as
`Except`-valued computations whose tentative state and events are
discarded when any step inside raises.
-/

namespace Archery

/-- Modelled from the spec: `WorkflowDict.workflow_status`
(`common/utils/const.py` is not under `src/`); the audit-domain decision /
aggregate-status enum, which per the spec "includes at least: success,
reject, abort" plus the waiting state. -/
inductive AuditStatus where
  | wait
  | success
  | reject
  | abort
deriving DecidableEq, Repr

/-- A run date parsed by `datetime.strptime(run_date, "%Y-%m-%d %H:%M")`. -/
structure RunDate where
  year : Nat
  month : Nat
  day : Nat
  hour : Nat
  minute : Nat
deriving DecidableEq, Repr

/-- The `SqlWorkflow` row fields this module reads or writes. -/
structure WfState where
  status : String
  engineer : String
  finishTime : Option String
  runDateStart : Option String
  runDateEnd : Option String
deriving DecidableEq, Repr

/-- The form-encoded request together with the authenticated user
(`request.POST` fields used by this module, `request.user` identity and the
static Django permissions the module queries). -/
structure Request where
  workflow_id : Option String
  audit_remark : Option String
  cancel_remark : Option String
  run_date : Option String
  run_date_start : Option String
  run_date_end : Option String
  mode : Option String
  username : String
  display : String
  hasPermSqlReview : Bool
  hasPermSqlExecute : Bool
  hasPermSqlExecuteForResourceGroup : Bool
deriving DecidableEq, Repr

/-- External-effect events, recorded at every collaborator call site in
program order: audit-gateway decision submissions (`Audit.audit`), audit
log appends (`Audit.add_log`), schedule-registry add/remove
(`add_sql_schedule` / `del_schedule`), execution enqueue (`async_task` of
`sql.utils.execute_sql.execute`), and notification dispatch (async
`notify_for_audit` task, synchronous `notify_for_execute`). -/
inductive Event where
  | auditDecision (auditId : Nat) (decision : AuditStatus) (operator : String) (remark : String)
  | addLog (auditId : Nat) (opType : Nat) (desc : String) (info : String)
      (operator : String) (operatorDisplay : String)
  | addSchedule (name : String) (runDate : RunDate) (workflowId : String)
  | delSchedule (name : String)
  | enqueueExec (taskRef : String) (workflowId : Int) (taskName : String)
  | notifyAuditAsync (auditId : Nat) (remark : String) (taskName : String)
  | notifyExecuteSync (workflowId : Int)
deriving DecidableEq, Repr

/-- What the view returns to the caller: a rendered `error.html` with a
user-visible `errMsg`, a redirect to the detail page, a JSON payload
(`osc_control`), or an unhandled exception propagating out of the view. -/
inductive Outcome where
  | errorPage (errMsg : String)
  | redirect (detailArg : String)
  | jsonResp (total : Nat) (msg : String)
  | crash (exc : String)
deriving DecidableEq, Repr

/-- Oracles for the external collaborators (spec section 6): the
authority-guard predicates from `sql.utils.sql_review` and
`Audit.can_review`, the ORM row lookup, the Audit Gateway calls, the save
and schedule-registry operations (each may raise, which `Except.error` /
a `false` flag models), the notification allow-list read from `SysConfig`,
and the wall clock formatted as `"%Y-%m-%d %H:%M:%S"`.  `auditDetail1` and
`auditDetail2` are the results of the first and second
`Audit.detail_by_workflow_id` calls of one view invocation. -/
structure Env where
  canReview : Bool
  canExecute : Bool
  canTimingtask : Bool
  canCancel : Bool
  onCorrectTimePeriod : Bool
  lookupOk : Bool
  auditDetail1 : Except String (Nat × AuditStatus)
  auditDetail2 : Except String (Nat × AuditStatus)
  auditCall : AuditStatus → Except String AuditStatus
  addLogOk : Bool
  addScheduleOk : Bool
  saveOk : Bool
  notifyPhaseControl : Option String
  nowStr : String
  oscResult : Except String (Nat × String)

/-- Numeric value of a digit character. -/
def d1 (a : Char) : Nat := a.toNat - 48

/-- Python `str.strip()` whitespace (the ASCII part). -/
def pyWs (c : Char) : Bool :=
  c = ' ' || c = '\t' || c = '\n' || c = '\r' || c = '\x0b' || c = '\x0c'

/-- Strip `pyWs` characters from both ends. -/
def pyStrip (cs : List Char) : List Char :=
  ((cs.dropWhile pyWs).reverse.dropWhile pyWs).reverse

/-- Decimal value of a non-empty all-digit character list, else `none`. -/
def digitsToNat? (cs : List Char) : Option Nat :=
  if cs ≠ [] ∧ cs.all Char.isDigit then
    some (cs.foldl (fun a c => a * 10 + d1 c) 0)
  else none

/-- Python `int(s)` on the ASCII strings this module receives: strip
surrounding whitespace, optional sign, then decimal digits; `none` models
the `ValueError` raised otherwise.  (CPython also accepts digit-group
underscores and non-ASCII digits; no input in this development uses them.) -/
def pyInt (s : String) : Option Int :=
  match pyStrip s.data with
  | '-' :: rest => (digitsToNat? rest).map (fun n => -(n : Int))
  | '+' :: rest => (digitsToNat? rest).map (fun n => (n : Int))
  | t => (digitsToNat? t).map (fun n => (n : Int))

/-- `int(request.POST.get("workflow_id", 0))`: an absent field defaults to
the integer `0`; a present field is a string converted by `int`, raising
(`none`) when non-numeric. -/
def parseWorkflowId (field : Option String) : Option Int :=
  match field with
  | none => some 0
  | some s => pyInt s

/-- Python `str.split(sep)` for a one-character separator: split at every
occurrence, keeping empty pieces; the result list is never empty. -/
def splitPy (sep : Char) : List Char → List (List Char)
  | [] => [[]]
  | c :: rest =>
    match splitPy sep rest with
    | h :: t => if c = sep then [] :: h :: t else (c :: h) :: t
    | [] => [[c]]

/-- The notification gate repeated inline at the Pass, Execute and Cancel
phases: `phase in cfg.split(",") if cfg else True` — default-permit when
the configured value is unset (`None`) or the empty string (both falsy),
otherwise membership of the phase name in the comma-separated list. -/
def isNotified (cfg : Option String) (phase : String) : Bool :=
  match cfg with
  | none => true
  | some c => if c = "" then true else (splitPy ',' c.data).contains phase.data

/-- Python `<` on `str`: lexicographic comparison of code points, a strict
prefix comparing less than any extension. -/
def charsLt : List Char → List Char → Bool
  | [], [] => false
  | [], _ :: _ => true
  | _ :: _, [] => false
  | a :: as, b :: bs => if a < b then true else if b < a then false else charsLt as bs

/-- Python `s < t` on strings. -/
def strLt (a b : String) : Bool := charsLt a.data b.data

/-- Python `x or None` on an optional form field: an empty string is falsy
and collapses to `None`. -/
def orNone (field : Option String) : Option String :=
  if field = some "" then none else field

/-! ### Model of CPython `datetime.strptime` for the fixed format `"%Y-%m-%d %H:%M"`

CPython `_strptime.TimeRE` compiles the format to the regex
`(\d\d\d\d)-(1[0-2]|0[1-9]|[1-9])-(3[01]|[12]\d|0[1-9]|[1-9]| [1-9])\s+(2[0-3]|[0-1]\d|\d):([0-5]\d|\d)`
— `%Y` is exactly four digits, the format's space is rewritten to `\s+`
(a run of one or more whitespace characters), and `%d` ends with the
space-padded-day alternative `" [1-9]"`.  The match must consume the whole
input (`strptime` raises "unconverted data remains" otherwise), after
which `datetime(year, month, day, hour, minute)` additionally validates
`1 <= year` and that the day exists in the month.  The candidate lists
below enumerate each component's regex alternatives in priority order
(`\s+` greedily, longest first) and the `List` monad explores them in
backtracking order, so the head of `strptimeCands` is exactly the regex's
match.  (As with `pyInt`, `\d` and `\s` are modelled over their ASCII
ranges; no input in this development uses non-ASCII digits or
whitespace.) -/

/-- Numeric value of two digit characters. -/
def d2 (a b : Char) : Nat := (a.toNat - 48) * 10 + (b.toNat - 48)

/-- Take exactly `n` leading digits, returning their value and the rest. -/
def splitDigits (n : Nat) (cs : List Char) : Option (Nat × List Char) :=
  if (cs.take n).length = n ∧ (cs.take n).all Char.isDigit then
    some ((cs.take n).foldl (fun a c => a * 10 + d1 c) 0, cs.drop n)
  else none

/-- `%Y`: exactly four digits (`\d\d\d\d`). -/
def yCands (cs : List Char) : List (Nat × List Char) :=
  (splitDigits 4 cs).toList

/-- A literal character of the format string. -/
def lit (c : Char) (cs : List Char) : List (List Char) :=
  match cs with
  | d :: rest => if d = c then [rest] else []
  | [] => []

/-- `%m` alternatives: `1[0-2] | 0[1-9] | [1-9]`. -/
def mCands (cs : List Char) : List (Nat × List Char) :=
  match cs with
  | a :: b :: rest =>
    (if a = '1' ∧ (b = '0' ∨ b = '1' ∨ b = '2') then [(d2 a b, rest)] else []) ++
    (if a = '0' ∧ ('1' ≤ b ∧ b ≤ '9') then [(d2 a b, rest)] else []) ++
    (if '1' ≤ a ∧ a ≤ '9' then [(d1 a, b :: rest)] else [])
  | a :: [] => if '1' ≤ a ∧ a ≤ '9' then [(d1 a, [])] else []
  | [] => []

/-- `%d` alternatives: `3[01] | [12]\d | 0[1-9] | [1-9]` followed by the
final alternative `" [1-9]"`, which matches a space-padded single-digit
day. -/
def dCands (cs : List Char) : List (Nat × List Char) :=
  match cs with
  | a :: b :: rest =>
    (if a = '3' ∧ (b = '0' ∨ b = '1') then [(d2 a b, rest)] else []) ++
    (if (a = '1' ∨ a = '2') ∧ b.isDigit then [(d2 a b, rest)] else []) ++
    (if a = '0' ∧ ('1' ≤ b ∧ b ≤ '9') then [(d2 a b, rest)] else []) ++
    (if '1' ≤ a ∧ a ≤ '9' then [(d1 a, b :: rest)] else []) ++
    (if a = ' ' ∧ ('1' ≤ b ∧ b ≤ '9') then [(d1 b, rest)] else [])
  | a :: [] => if '1' ≤ a ∧ a ≤ '9' then [(d1 a, [])] else []
  | [] => []

/-- `%H` alternatives: `2[0-3] | [0-1]\d | \d`. -/
def hCands (cs : List Char) : List (Nat × List Char) :=
  match cs with
  | a :: b :: rest =>
    (if a = '2' ∧ ('0' ≤ b ∧ b ≤ '3') then [(d2 a b, rest)] else []) ++
    (if (a = '0' ∨ a = '1') ∧ b.isDigit then [(d2 a b, rest)] else []) ++
    (if a.isDigit then [(d1 a, b :: rest)] else [])
  | a :: [] => if a.isDigit then [(d1 a, [])] else []
  | [] => []

/-- `%M` alternatives: `[0-5]\d | \d`. -/
def minCands (cs : List Char) : List (Nat × List Char) :=
  match cs with
  | a :: b :: rest =>
    (if ('0' ≤ a ∧ a ≤ '5') ∧ b.isDigit then [(d2 a b, rest)] else []) ++
    (if a.isDigit then [(d1 a, b :: rest)] else [])
  | a :: [] => if a.isDigit then [(d1 a, [])] else []
  | [] => []

/-- `\s+` (the compiled form of the format's space): consume a non-empty
run of whitespace, candidates greedily from longest to shortest. -/
def wsCands : List Char → List (List Char)
  | c :: rest => if pyWs c then wsCands rest ++ [rest] else []
  | [] => []

/-- All full regex matches of the compiled `"%Y-%m-%d %H:%M"` pattern
against the whole input, in backtracking priority order. -/
def strptimeCands (cs : List Char) : List RunDate :=
  (yCands cs).flatMap fun yr =>
  (lit '-' yr.2).flatMap fun r2 =>
  (mCands r2).flatMap fun mo =>
  (lit '-' mo.2).flatMap fun r4 =>
  (dCands r4).flatMap fun dy =>
  (wsCands dy.2).flatMap fun r6 =>
  (hCands r6).flatMap fun hr =>
  (lit ':' hr.2).flatMap fun r8 =>
  (minCands r8).flatMap fun mi =>
  if mi.2 = [] then [⟨yr.1, mo.1, dy.1, hr.1, mi.1⟩] else []

/-- Gregorian leap year, as `calendar.isleap`. -/
def isLeap (y : Nat) : Bool := (y % 4 == 0 && y % 100 != 0) || y % 400 == 0

/-- Days in a month, as `datetime` uses to validate the day. -/
def daysInMonth (y m : Nat) : Nat :=
  if m = 2 then (if isLeap y then 29 else 28)
  else if m = 4 ∨ m = 6 ∨ m = 9 ∨ m = 11 then 30
  else 31

/-- `datetime.strptime(s, "%Y-%m-%d %H:%M")`: `none` models the
`ValueError` raised on a non-matching input or an out-of-range date. -/
def strptimeYmdHM (s : String) : Option RunDate :=
  match strptimeCands s.data with
  | [] => none
  | rd :: _ =>
    if 1 ≤ rd.year ∧ 1 ≤ rd.day ∧ rd.day ≤ daysInMonth rd.year rd.month then some rd
    else none

/-- Zero-padded two-digit rendering, as `str(datetime)` uses. -/
def pad2 (n : Nat) : String :=
  if n < 10 then "0" ++ toString n else toString n

/-- Zero-padded four-digit year rendering, as `str(datetime)` uses. -/
def pad4 (n : Nat) : String :=
  if n < 10 then "000" ++ toString n
  else if n < 100 then "00" ++ toString n
  else if n < 1000 then "0" ++ toString n
  else toString n

/-- `str(run_date)` for a parsed run date (seconds are zero). -/
def rdStr (rd : RunDate) : String :=
  pad4 rd.year ++ "-" ++ pad2 rd.month ++ "-" ++ pad2 rd.day ++ " " ++
  pad2 rd.hour ++ ":" ++ pad2 rd.minute ++ ":00"

/-! ### The views of `sql/sql_workflow.py` -/

/-- The `transaction.atomic` body of `passed` (lines 88-109): fetch the
audit detail, submit an `audit_success` decision, and when the returned
aggregate status equals `audit_success`, write
`status = "workflow_review_pass"`.  Returns the tentative state, the
events performed inside the block, and the `audit_id` (which the Python
code reuses after the block); `Except.error` is an exception aborting and
rolling back the whole block. -/
def passedAtomic (req : Request) (env : Env) (s : WfState) :
    Except String (WfState × List Event × Nat) := do
  let det ← env.auditDetail1
  let audit_id := det.1
  let res ← env.auditCall AuditStatus.success
  let evs : List Event :=
    [Event.auditDecision audit_id AuditStatus.success req.username (req.audit_remark.getD "")]
  if res = AuditStatus.success then
    if env.saveOk then
      return ({ s with status := "workflow_review_pass" }, evs, audit_id)
    else throw "save failed"
  else
    return (s, evs, audit_id)

/-- `passed` (lines 68-131): permission decorator, workflow_id parse and
zero check, `Audit.can_review` guard, the atomic block, and — only when
the block did not raise — the Pass-phase notification gate followed by an
async `notify_for_audit` task. -/
def passed (req : Request) (env : Env) (s : WfState) : Outcome × WfState × List Event :=
  if req.hasPermSqlReview = false then (Outcome.crash "PermissionDenied", s, [])
  else
    match parseWorkflowId req.workflow_id with
    | none => (Outcome.crash "ValueError", s, [])
    | some wid =>
      if wid = 0 then (Outcome.errorPage "workflow_id参数为空.", s, [])
      else if env.canReview = false then (Outcome.errorPage "你无权操作当前工单！", s, [])
      else
        match passedAtomic req env s with
        | Except.error msg => (Outcome.errorPage msg, s, [])
        | Except.ok (s2, evs, audit_id) =>
          let evs2 :=
            if isNotified env.notifyPhaseControl "Pass" then
              evs ++ [Event.notifyAuditAsync audit_id (req.audit_remark.getD "")
                ("sqlreview-pass-" ++ toString wid)]
            else evs
          (Outcome.redirect (toString wid), s2, evs2)

/-- `execute` (lines 134-218): explicit permission check (raises
`PermissionDenied` when neither execute permission is held), workflow_id
parse and zero check, `can_execute` and `on_correct_time_period` guards,
audit detail fetch (outside any try), then the mode branch.  No
transaction wraps either branch: each effect commits as it happens and a
failure mid-sequence leaves the earlier effects in place. -/
def execute (req : Request) (env : Env) (s : WfState) : Outcome × WfState × List Event :=
  if (req.hasPermSqlExecute || req.hasPermSqlExecuteForResourceGroup) = false then
    (Outcome.crash "PermissionDenied", s, [])
  else
    match parseWorkflowId req.workflow_id with
    | none => (Outcome.crash "ValueError", s, [])
    | some wid =>
      if wid = 0 then (Outcome.errorPage "workflow_id参数为空.", s, [])
      else if env.canExecute = false then (Outcome.errorPage "你无权操作当前工单！", s, [])
      else if env.onCorrectTimePeriod = false then
        (Outcome.errorPage "不在可执行时间范围内，如果需要修改执行时间请重新提交工单!", s, [])
      else
        match env.auditDetail1 with
        | Except.error e => (Outcome.crash e, s, [])
        | Except.ok det =>
          let audit_id := det.1
          match req.mode with
          | some "auto" =>
            if env.saveOk = false then (Outcome.crash "save failed", s, [])
            else
              let s2 := { s with status := "workflow_queuing" }
              let evs1 : List Event :=
                [Event.delSchedule ("sqlreview-timing-" ++ toString wid),
                 Event.enqueueExec "sql.utils.execute_sql.execute" wid
                   ("sqlreview-execute-" ++ toString wid)]
              if env.addLogOk = false then (Outcome.crash "add_log failed", s2, evs1)
              else
                (Outcome.redirect (toString wid), s2,
                 evs1 ++ [Event.addLog audit_id 5 "执行工单" "工单执行排队中"
                   req.username req.display])
          | some "manual" =>
            if env.saveOk = false then (Outcome.crash "save failed", s, [])
            else
              let s2 := { s with status := "workflow_finish", finishTime := some env.nowStr }
              if env.addLogOk = false then (Outcome.crash "add_log failed", s2, [])
              else
                let evs1 : List Event :=
                  [Event.addLog audit_id 6 "手工工单" "确认手工执行结束"
                    req.username req.display]
                if isNotified env.notifyPhaseControl "Execute" then
                  if env.lookupOk = false then (Outcome.crash "SqlWorkflow.DoesNotExist", s2, evs1)
                  else (Outcome.redirect (toString wid), s2, evs1 ++ [Event.notifyExecuteSync wid])
                else (Outcome.redirect (toString wid), s2, evs1)
          | _ => (Outcome.redirect (toString wid), s, [])

/-- The `transaction.atomic` body of `timing_task` (lines 256-274): write
`status = "workflow_timingtask"`, register the named schedule, fetch the
audit detail, and append the operation-type-4 log entry. -/
def timingTaskAtomic (req : Request) (env : Env) (s : WfState)
    (schedule_name : String) (rd : RunDate) (workflow_id : String) :
    Except String (WfState × List Event) := do
  if env.saveOk = false then throw "save failed"
  let s2 := { s with status := "workflow_timingtask" }
  if env.addScheduleOk = false then throw "add_sql_schedule failed"
  let evs1 : List Event := [Event.addSchedule schedule_name rd workflow_id]
  let det ← env.auditDetail1
  if env.addLogOk = false then throw "add_log failed"
  return (s2, evs1 ++ [Event.addLog det.1 4 "定时执行" ("定时执行时间：" ++ rdStr rd)
    req.username req.display])

/-- `timing_task` (lines 221-279): explicit permission check, the
absent-field check (`run_date is None or workflow_id is None`), the raw
lexicographic string comparison of `run_date` against
`now().strftime("%Y-%m-%d %H:%M:%S")`, the ORM row fetch, the
`can_timingtask` guard, `strptime` (whose `ValueError` on a malformed
string is unhandled here), the `on_correct_time_period` guard, and the
atomic block.  `workflow_id` stays a raw string in this view. -/
def timing_task (req : Request) (env : Env) (s : WfState) : Outcome × WfState × List Event :=
  if (req.hasPermSqlExecute || req.hasPermSqlExecuteForResourceGroup) = false then
    (Outcome.crash "PermissionDenied", s, [])
  else
    match req.run_date, req.workflow_id with
    | none, _ => (Outcome.errorPage "时间不能为空", s, [])
    | _, none => (Outcome.errorPage "时间不能为空", s, [])
    | some run_date, some workflow_id =>
      if strLt run_date env.nowStr then (Outcome.errorPage "时间不能小于当前时间", s, [])
      else if env.lookupOk = false then (Outcome.crash "SqlWorkflow.DoesNotExist", s, [])
      else if env.canTimingtask = false then (Outcome.errorPage "你无权操作当前工单！", s, [])
      else
        match strptimeYmdHM run_date with
        | none => (Outcome.crash "ValueError", s, [])
        | some rd =>
          let schedule_name := "sqlreview-timing-" ++ workflow_id
          if env.onCorrectTimePeriod = false then
            (Outcome.errorPage "不在可执行时间范围内，如果需要修改执    行时间请重新提交工单!", s, [])
          else
            match timingTaskAtomic req env s schedule_name rd workflow_id with
            | Except.error msg => (Outcome.errorPage msg, s, [])
            | Except.ok (s2, evs) => (Outcome.redirect workflow_id, s2, evs)

/-- The `transaction.atomic` body of `cancel` (lines 305-357): fetch the
audit detail; when the row is not in `workflow_manreviewing`, append one
log entry (operation type 3 "取消执行" for the submitter, else 2
"审批不通过"); when it is, submit an `audit_abort` decision for the
submitter, an `audit_reject` decision for a non-submitter holding
`sql.sql_review`, and raise `PermissionDenied` for anyone else; then
remove the named schedule when the row was in `workflow_timingtask`, and
write `status = "workflow_abort"`. -/
def cancelAtomic (req : Request) (env : Env) (s : WfState) (audit_remark : String)
    (wid : Int) : Except String (WfState × List Event) := do
  let det ← env.auditDetail1
  let audit_id := det.1
  let evs1 : List Event ←
    if s.status ≠ "workflow_manreviewing" then
      if req.username = s.engineer then
        if env.addLogOk then
          pure [Event.addLog audit_id 3 "取消执行" ("取消原因：" ++ audit_remark)
            req.username req.display]
        else throw "add_log failed"
      else
        if env.addLogOk then
          pure [Event.addLog audit_id 2 "审批不通过" ("审批备注：" ++ audit_remark)
            req.username req.display]
        else throw "add_log failed"
    else
      if req.username = s.engineer then do
        let _ ← env.auditCall AuditStatus.abort
        pure [Event.auditDecision audit_id AuditStatus.abort req.username audit_remark]
      else if req.hasPermSqlReview then do
        let _ ← env.auditCall AuditStatus.reject
        pure [Event.auditDecision audit_id AuditStatus.reject req.username audit_remark]
      else throw "PermissionDenied"
  let evs2 :=
    if s.status = "workflow_timingtask" then
      evs1 ++ [Event.delSchedule ("sqlreview-timing-" ++ toString wid)]
    else evs1
  if env.saveOk = false then throw "save failed"
  return ({ s with status := "workflow_abort" }, evs2)

/-- `cancel` (lines 282-386): workflow_id parse and zero check, the ORM
row fetch (before the remark check), the `cancel_remark is None` check,
the `can_cancel` guard, the atomic block, and — only when the block did
not raise — the Cancel-phase notification gate, a second audit-detail
fetch (an exception there is unhandled), and an async `notify_for_audit`
task when the aggregate audit status is abort or reject. -/
def cancel (req : Request) (env : Env) (s : WfState) : Outcome × WfState × List Event :=
  match parseWorkflowId req.workflow_id with
  | none => (Outcome.crash "ValueError", s, [])
  | some wid =>
    if wid = 0 then (Outcome.errorPage "workflow_id参数为空.", s, [])
    else if env.lookupOk = false then (Outcome.crash "SqlWorkflow.DoesNotExist", s, [])
    else
      match req.cancel_remark with
      | none => (Outcome.errorPage "终止原因不能为空", s, [])
      | some audit_remark =>
        if env.canCancel = false then (Outcome.errorPage "你无权操作当前工单！", s, [])
        else
          match cancelAtomic req env s audit_remark wid with
          | Except.error msg => (Outcome.errorPage msg, s, [])
          | Except.ok (s2, evs) =>
            if isNotified env.notifyPhaseControl "Cancel" then
              match env.auditDetail2 with
              | Except.error e => (Outcome.crash e, s2, evs)
              | Except.ok det2 =>
                if det2.2 = AuditStatus.abort ∨ det2.2 = AuditStatus.reject then
                  (Outcome.redirect (toString wid), s2,
                   evs ++ [Event.notifyAuditAsync det2.1 audit_remark
                     ("sqlreview-cancel-" ++ toString wid)])
                else (Outcome.redirect (toString wid), s2, evs)
            else (Outcome.redirect (toString wid), s2, evs)

/-- `alter_run_date` (lines 36-65): permission decorator, workflow_id
parse and zero check, `Audit.can_review` guard, then a non-transactional
save of `run_date_start` / `run_date_end` (empty strings collapse to
`None` via `or None`), rendering the error page when the save raises. -/
def alter_run_date (req : Request) (env : Env) (s : WfState) : Outcome × WfState × List Event :=
  if req.hasPermSqlReview = false then (Outcome.crash "PermissionDenied", s, [])
  else
    match parseWorkflowId req.workflow_id with
    | none => (Outcome.crash "ValueError", s, [])
    | some wid =>
      if wid = 0 then (Outcome.errorPage "workflow_id参数为空.", s, [])
      else if env.canReview = false then (Outcome.errorPage "你无权操作当前工单！", s, [])
      else if env.saveOk = false then (Outcome.errorPage "save failed", s, [])
      else
        (Outcome.redirect (toString wid),
         { s with runDateStart := orNone req.run_date_start,
                  runDateEnd := orNone req.run_date_end }, [])

/-- `osc_control` (lines 404-422): no validation of `workflow_id` at all —
the raw form value goes straight into the ORM lookup (which raises when no
row matches); engine errors are caught and folded into the JSON payload. -/
def osc_control (req : Request) (env : Env) (s : WfState) : Outcome × WfState × List Event :=
  if env.lookupOk = false then (Outcome.crash "SqlWorkflow.DoesNotExist", s, [])
  else
    match env.oscResult with
    | Except.ok r => (Outcome.jsonResp r.1 r.2, s, [])
    | Except.error e => (Outcome.jsonResp 0 e, s, [])

/-! ### Observations on event traces -/

/-- Is the event an audit-gateway decision submission? -/
def isDecision : Event → Bool
  | Event.auditDecision _ _ _ _ => true
  | _ => false

/-- Is the event a decision submission of the given kind? -/
def isDecisionOf (d : AuditStatus) : Event → Bool
  | Event.auditDecision _ d2 _ _ => d = d2
  | _ => false

/-- Is the event an audit log append? -/
def isLogEvent : Event → Bool
  | Event.addLog _ _ _ _ _ _ => true
  | _ => false

/-- Is the event a log append with the given operation type? -/
def isLogOf (op : Nat) : Event → Bool
  | Event.addLog _ op2 _ _ _ _ => op = op2
  | _ => false

/-- Is the event an execution enqueue? -/
def isEnqueue : Event → Bool
  | Event.enqueueExec _ _ _ => true
  | _ => false

/-- Is the event an async audit notification dispatch? -/
def isNotifyAudit : Event → Bool
  | Event.notifyAuditAsync _ _ _ => true
  | _ => false

/-- Is the event a schedule-registry add? -/
def isAddSchedule : Event → Bool
  | Event.addSchedule _ _ _ => true
  | _ => false

/-- Replay a trace's schedule-registry effects over a registry of task
names; `del_schedule` filters a name out (idempotent, no error if absent,
per the spec's Schedule Registry contract). -/
def applyReg (evs : List Event) (reg : List String) : List String :=
  evs.foldl (fun r e =>
    match e with
    | Event.addSchedule n _ _ => r ++ [n]
    | Event.delSchedule n => r.filter (fun x => x ≠ n)
    | _ => r) reg

/-! ### Concrete instances used by witness and counterexample theorems -/

/-- A concrete request: submitter `alice` holding every static permission. -/
def reqBase : Request :=
  { workflow_id := some "42", audit_remark := some "looks good",
    cancel_remark := some "no longer needed",
    run_date := some "2026-10-13 09:30", run_date_start := none, run_date_end := none,
    mode := some "auto", username := "alice", display := "Alice",
    hasPermSqlReview := true, hasPermSqlExecute := true,
    hasPermSqlExecuteForResourceGroup := false }

/-- A concrete environment where every guard passes and every collaborator
call succeeds; the audit gateway reports `audit_success` on decisions and
`audit_abort` as the post-cancel aggregate status. -/
def envBase : Env :=
  { canReview := true, canExecute := true, canTimingtask := true, canCancel := true,
    onCorrectTimePeriod := true, lookupOk := true,
    auditDetail1 := Except.ok (11, AuditStatus.wait),
    auditDetail2 := Except.ok (11, AuditStatus.abort),
    auditCall := fun _ => Except.ok AuditStatus.success,
    addLogOk := true, addScheduleOk := true, saveOk := true,
    notifyPhaseControl := some "Pass,Execute",
    nowStr := "2026-10-12 00:00:00",
    oscResult := Except.ok (0, "") }

/-- A concrete workflow row awaiting first review, submitted by `alice`. -/
def sBase : WfState :=
  { status := "workflow_manreviewing", engineer := "alice", finishTime := none,
    runDateStart := none, runDateEnd := none }

/-! ### Claim theorems -/

/-- The spec's wording of the notification gate, stated independently of
the code: permit when the allow-list is unset or empty, or when the phase
is one of its comma-separated elements. -/
def gateSpec (cfg : Option String) (phase : String) : Prop :=
  cfg = none ∨ cfg = some "" ∨ ∃ c, cfg = some c ∧ phase.data ∈ splitPy ',' c.data

/-- C9: the notification-gate decision returns true if and only if the
configured allow-list is unset or empty (default-permit) or the phase name
is one of its comma-separated elements; in particular with allow-list
"Pass,Execute" and phase "Cancel" it returns false, and with an unset or
empty allow-list it returns true for every phase. -/
theorem notification_gate_correct :
    (∀ cfg phase, isNotified cfg phase = true ↔ gateSpec cfg phase) ∧
    isNotified (some "Pass,Execute") "Cancel" = false ∧
    (∀ phase, isNotified none phase = true ∧ isNotified (some "") phase = true) := by
  refine ⟨?_, by decide, fun phase => ⟨rfl, rfl⟩⟩
  intro cfg phase
  cases cfg with
  | none => simp [isNotified, gateSpec]
  | some c =>
    by_cases hc : c = ""
    · subst hc; simp [isNotified, gateSpec]
    · simp [isNotified, gateSpec, hc, List.elem_iff]

/-- Evaluation of `passed` on the guard-passing, exception-free path:
the decision is submitted, the status is written only on aggregate
success, and the Pass-phase gate decides whether the async notification
task is appended. -/
theorem passed_ok_eq (req : Request) (env : Env) (s : WfState)
    (wid : Int) (a : Nat) (cs res : AuditStatus)
    (hperm : req.hasPermSqlReview = true)
    (hwid : parseWorkflowId req.workflow_id = some wid) (h0 : wid ≠ 0)
    (hcr : env.canReview = true)
    (hdet : env.auditDetail1 = Except.ok (a, cs))
    (hcall : env.auditCall AuditStatus.success = Except.ok res)
    (hsave : env.saveOk = true) :
    passed req env s =
      (Outcome.redirect (toString wid),
       (if res = AuditStatus.success then { s with status := "workflow_review_pass" } else s),
       (if isNotified env.notifyPhaseControl "Pass" then
          [Event.auditDecision a AuditStatus.success req.username (req.audit_remark.getD ""),
           Event.notifyAuditAsync a (req.audit_remark.getD "") ("sqlreview-pass-" ++ toString wid)]
        else
          [Event.auditDecision a AuditStatus.success req.username (req.audit_remark.getD "")])) := by
  have hat : passedAtomic req env s =
      Except.ok
        ((if res = AuditStatus.success then { s with status := "workflow_review_pass" } else s),
         [Event.auditDecision a AuditStatus.success req.username (req.audit_remark.getD "")],
         a) := by
    unfold passedAtomic
    rw [hdet]
    cases res <;> simp_all [Except.bind, bind, pure, Except.pure]
  unfold passed
  rw [hwid]
  cases hg : isNotified env.notifyPhaseControl "Pass" <;>
    simp [hperm, h0, hcr, hat, hg]

/-- C1: for every `passed` call that passes the workflow_id and
review-authority guards, with the Audit Gateway's decision returning
aggregate status `res`, the workflow status is set to
`workflow_review_pass` if and only if `res` is `audit_success`, and under
any non-success decision the workflow row is unchanged after the call. -/
theorem passed_pass_iff_success (req : Request) (env : Env) (s : WfState)
    (wid : Int) (a : Nat) (cs res : AuditStatus)
    (hperm : req.hasPermSqlReview = true)
    (hwid : parseWorkflowId req.workflow_id = some wid) (h0 : wid ≠ 0)
    (hcr : env.canReview = true)
    (hdet : env.auditDetail1 = Except.ok (a, cs))
    (hcall : env.auditCall AuditStatus.success = Except.ok res)
    (hsave : env.saveOk = true) :
    (res = AuditStatus.success →
      (passed req env s).2.1 = { s with status := "workflow_review_pass" }) ∧
    (res ≠ AuditStatus.success → (passed req env s).2.1 = s) ∧
    (s.status ≠ "workflow_review_pass" →
      ((passed req env s).2.1.status = "workflow_review_pass" ↔ res = AuditStatus.success)) := by
  have hres := passed_ok_eq req env s wid a cs res hperm hwid h0 hcr hdet hcall hsave
  refine ⟨fun hs => ?_, fun hs => ?_, fun hs => ?_⟩
  · rw [hres]; simp [hs]
  · rw [hres]; simp [hs]
  · rw [hres]
    by_cases h : res = AuditStatus.success
    · simp [h]
    · simp [h, hs]

/-- Witness for C1: on a concrete guard-passing call where the gateway
reports aggregate success, the status becomes `workflow_review_pass`. -/
theorem passed_pass_iff_success_witness :
    (passed reqBase envBase sBase).2.1 =
      { sBase with status := "workflow_review_pass" } := by
  have h := passed_pass_iff_success reqBase envBase sBase 42 11
    AuditStatus.wait AuditStatus.success rfl (by decide) (by decide) rfl rfl rfl rfl
  exact h.1 rfl

/-- Like `envBase`, but the decision leaves the aggregate audit status at
`audit_wait` (further review levels remain), so no status transition. -/
def envWait : Env := { envBase with auditCall := fun _ => Except.ok AuditStatus.wait }

/-- C10: for every `passed` call whose transaction commits without an
exception, the Pass-phase notification gate is evaluated and, if it
permits, exactly one asynchronous notification task is enqueued — even
when the audit decision did not reach aggregate success and the workflow
status was therefore left unchanged; dispatch depends only on the commit,
not on the status transition occurring. -/
theorem passed_notifies_despite_no_transition (req : Request) (env : Env) (s : WfState)
    (wid : Int) (a : Nat) (cs res : AuditStatus)
    (hperm : req.hasPermSqlReview = true)
    (hwid : parseWorkflowId req.workflow_id = some wid) (h0 : wid ≠ 0)
    (hcr : env.canReview = true)
    (hdet : env.auditDetail1 = Except.ok (a, cs))
    (hcall : env.auditCall AuditStatus.success = Except.ok res)
    (hsave : env.saveOk = true)
    (hns : res ≠ AuditStatus.success) :
    (passed req env s).2.1 = s ∧
    (passed req env s).1 = Outcome.redirect (toString wid) ∧
    (passed req env s).2.2.countP isNotifyAudit =
      (if isNotified env.notifyPhaseControl "Pass" then 1 else 0) ∧
    (isNotified env.notifyPhaseControl "Pass" = true →
      Event.notifyAuditAsync a (req.audit_remark.getD "") ("sqlreview-pass-" ++ toString wid)
        ∈ (passed req env s).2.2) := by
  have hres := passed_ok_eq req env s wid a cs res hperm hwid h0 hcr hdet hcall hsave
  rw [hres]
  cases hg : isNotified env.notifyPhaseControl "Pass" <;>
    simp [hns, hg, List.countP_cons, isNotifyAudit]

/-- Witness for C10: on a concrete call where the decision leaves the
audit aggregate at `audit_wait`, the row is unchanged yet the Pass-phase
notification task is dispatched. -/
theorem passed_notifies_despite_no_transition_witness :
    (passed reqBase envWait sBase).2.1 = sBase ∧
    (passed reqBase envWait sBase).2.2.countP isNotifyAudit = 1 := by
  have h := passed_notifies_despite_no_transition reqBase envWait sBase 42 11
    AuditStatus.wait AuditStatus.wait rfl (by decide) (by decide) rfl rfl rfl rfl (by decide)
  refine ⟨h.1, ?_⟩
  rw [h.2.2.1]
  decide

/-- Evaluation of `cancel` when the atomic block commits: redirect, the
committed state, and the committed events followed by the post-commit
Cancel-phase notification tail. -/
theorem cancel_commit_eq (req : Request) (env : Env) (s : WfState)
    (wid : Int) (r : String) (a2 : Nat) (cs2 : AuditStatus) (s2 : WfState) (evs : List Event)
    (hwid : parseWorkflowId req.workflow_id = some wid) (h0 : wid ≠ 0)
    (hlk : env.lookupOk = true)
    (hrm : req.cancel_remark = some r)
    (hcc : env.canCancel = true)
    (hdet2 : env.auditDetail2 = Except.ok (a2, cs2))
    (hat : cancelAtomic req env s r wid = Except.ok (s2, evs)) :
    cancel req env s =
      (Outcome.redirect (toString wid), s2,
       if isNotified env.notifyPhaseControl "Cancel" then
         (if cs2 = AuditStatus.abort ∨ cs2 = AuditStatus.reject then
            evs ++ [Event.notifyAuditAsync a2 r ("sqlreview-cancel-" ++ toString wid)]
          else evs)
       else evs) := by
  unfold cancel
  rw [hwid]
  by_cases hcs : cs2 = AuditStatus.abort ∨ cs2 = AuditStatus.reject <;>
    cases hg : isNotified env.notifyPhaseControl "Cancel" <;>
      simp [h0, hlk, hrm, hcc, hat, hdet2, hg, hcs]

/-- Evaluation of `cancel` when the atomic block raises: full rollback and
the error page, nothing committed. -/
theorem cancel_rollback_eq (req : Request) (env : Env) (s : WfState)
    (wid : Int) (r : String) (m : String)
    (hwid : parseWorkflowId req.workflow_id = some wid) (h0 : wid ≠ 0)
    (hlk : env.lookupOk = true)
    (hrm : req.cancel_remark = some r)
    (hcc : env.canCancel = true)
    (hat : cancelAtomic req env s r wid = Except.error m) :
    cancel req env s = (Outcome.errorPage m, s, []) := by
  unfold cancel
  rw [hwid]
  simp [h0, hlk, hrm, hcc, hat]

/-- The `cancel` atomic block on a `workflow_manreviewing` row cancelled
by its submitter: one `audit_abort` decision, then the status write. -/
theorem cancelAtomic_mr_submitter (req : Request) (env : Env) (s : WfState)
    (r : String) (wid : Int) (a : Nat) (cs ra : AuditStatus)
    (hst : s.status = "workflow_manreviewing")
    (hsub : req.username = s.engineer)
    (hdet : env.auditDetail1 = Except.ok (a, cs))
    (hca : env.auditCall AuditStatus.abort = Except.ok ra)
    (hsave : env.saveOk = true) :
    cancelAtomic req env s r wid =
      Except.ok ({ s with status := "workflow_abort" },
        [Event.auditDecision a AuditStatus.abort req.username r]) := by
  unfold cancelAtomic
  rw [hdet]
  simp [Except.bind, bind, pure, Except.pure, hst, hsub, hca, hsave,
    show ("workflow_manreviewing" : String) ≠ "workflow_timingtask" from by decide]

/-- The `cancel` atomic block on a `workflow_manreviewing` row cancelled
by a non-submitter holding `sql.sql_review`: one `audit_reject` decision,
then the status write. -/
theorem cancelAtomic_mr_reviewer (req : Request) (env : Env) (s : WfState)
    (r : String) (wid : Int) (a : Nat) (cs rr : AuditStatus)
    (hst : s.status = "workflow_manreviewing")
    (hsub : req.username ≠ s.engineer)
    (hrev : req.hasPermSqlReview = true)
    (hdet : env.auditDetail1 = Except.ok (a, cs))
    (hcrj : env.auditCall AuditStatus.reject = Except.ok rr)
    (hsave : env.saveOk = true) :
    cancelAtomic req env s r wid =
      Except.ok ({ s with status := "workflow_abort" },
        [Event.auditDecision a AuditStatus.reject req.username r]) := by
  unfold cancelAtomic
  rw [hdet]
  simp [Except.bind, bind, pure, Except.pure, hst, hsub, hrev, hcrj, hsave,
    show ("workflow_manreviewing" : String) ≠ "workflow_timingtask" from by decide]

/-- The `cancel` atomic block on a `workflow_manreviewing` row cancelled
by a non-submitter without `sql.sql_review`: `PermissionDenied` is raised
inside the block. -/
theorem cancelAtomic_mr_denied (req : Request) (env : Env) (s : WfState)
    (r : String) (wid : Int) (a : Nat) (cs : AuditStatus)
    (hst : s.status = "workflow_manreviewing")
    (hsub : req.username ≠ s.engineer)
    (hrev : req.hasPermSqlReview = false)
    (hdet : env.auditDetail1 = Except.ok (a, cs)) :
    cancelAtomic req env s r wid = Except.error "PermissionDenied" := by
  unfold cancelAtomic
  rw [hdet]
  simp [Except.bind, bind, pure, Except.pure, hst, hsub, hrev]

/-- The `cancel` atomic block on a row past first review: no gateway
decision, one log entry (operation type 3 for the submitter, 2 otherwise),
schedule removal when the row was in `workflow_timingtask`, then the
status write. -/
theorem cancelAtomic_log_eq (req : Request) (env : Env) (s : WfState)
    (r : String) (wid : Int) (a : Nat) (cs : AuditStatus)
    (hst : s.status ≠ "workflow_manreviewing")
    (hdet : env.auditDetail1 = Except.ok (a, cs))
    (hlog : env.addLogOk = true)
    (hsave : env.saveOk = true) :
    cancelAtomic req env s r wid =
      Except.ok ({ s with status := "workflow_abort" },
        (if req.username = s.engineer then
           [Event.addLog a 3 "取消执行" ("取消原因：" ++ r) req.username req.display]
         else
           [Event.addLog a 2 "审批不通过" ("审批备注：" ++ r) req.username req.display]) ++
        (if s.status = "workflow_timingtask" then
           [Event.delSchedule ("sqlreview-timing-" ++ toString wid)]
         else [])) := by
  unfold cancelAtomic
  rw [hdet]
  by_cases hsub : req.username = s.engineer <;>
    by_cases hts : s.status = "workflow_timingtask" <;>
      simp [Except.bind, bind, pure, Except.pure, hst, hsub, hts, hlog, hsave]

/-- C2: for every cancel on a `workflow_manreviewing` row with a reason
supplied and cancel authority held: the submitter's cancel submits exactly
one `audit_abort` decision and ends in `workflow_abort`; a non-submitter
holding review authority submits exactly one `audit_reject` decision and
ends in `workflow_abort`; an actor who is neither has `PermissionDenied`
raised, the transaction rolled back, and no state change. -/
theorem cancel_manreviewing_cases (req : Request) (env : Env) (s : WfState)
    (wid : Int) (r : String) (a a2 : Nat) (cs cs2 ra rr : AuditStatus)
    (hwid : parseWorkflowId req.workflow_id = some wid) (h0 : wid ≠ 0)
    (hlk : env.lookupOk = true)
    (hrm : req.cancel_remark = some r)
    (hcc : env.canCancel = true)
    (hst : s.status = "workflow_manreviewing")
    (hdet : env.auditDetail1 = Except.ok (a, cs))
    (hdet2 : env.auditDetail2 = Except.ok (a2, cs2))
    (hca : env.auditCall AuditStatus.abort = Except.ok ra)
    (hcrj : env.auditCall AuditStatus.reject = Except.ok rr)
    (hsave : env.saveOk = true) :
    (req.username = s.engineer →
      (cancel req env s).2.2.countP (isDecisionOf AuditStatus.abort) = 1 ∧
      (cancel req env s).2.2.countP isDecision = 1 ∧
      (cancel req env s).2.1.status = "workflow_abort" ∧
      (cancel req env s).1 = Outcome.redirect (toString wid)) ∧
    (req.username ≠ s.engineer → req.hasPermSqlReview = true →
      (cancel req env s).2.2.countP (isDecisionOf AuditStatus.reject) = 1 ∧
      (cancel req env s).2.2.countP isDecision = 1 ∧
      (cancel req env s).2.1.status = "workflow_abort" ∧
      (cancel req env s).1 = Outcome.redirect (toString wid)) ∧
    (req.username ≠ s.engineer → req.hasPermSqlReview = false →
      cancel req env s = (Outcome.errorPage "PermissionDenied", s, [])) := by
  refine ⟨fun hsub => ?_, fun hsub hrev => ?_, fun hsub hrev => ?_⟩
  · have hat := cancelAtomic_mr_submitter req env s r wid a cs ra hst hsub hdet hca hsave
    have hc := cancel_commit_eq req env s wid r a2 cs2 _ _ hwid h0 hlk hrm hcc hdet2 hat
    rw [hc]
    by_cases hcs : cs2 = AuditStatus.abort ∨ cs2 = AuditStatus.reject <;>
      cases hg : isNotified env.notifyPhaseControl "Cancel" <;>
        simp [hg, hcs, List.countP_cons, isDecision, isDecisionOf]
  · have hat := cancelAtomic_mr_reviewer req env s r wid a cs rr hst hsub hrev hdet hcrj hsave
    have hc := cancel_commit_eq req env s wid r a2 cs2 _ _ hwid h0 hlk hrm hcc hdet2 hat
    rw [hc]
    by_cases hcs : cs2 = AuditStatus.abort ∨ cs2 = AuditStatus.reject <;>
      cases hg : isNotified env.notifyPhaseControl "Cancel" <;>
        simp [hg, hcs, List.countP_cons, isDecision, isDecisionOf]
  · exact cancel_rollback_eq req env s wid r _ hwid h0 hlk hrm hcc
      (cancelAtomic_mr_denied req env s r wid a cs hst hsub hrev hdet)

/-- Witness for C2: concrete submitter cancel of a row under first review
yields one abort decision and final status `workflow_abort`. -/
theorem cancel_manreviewing_cases_witness :
    (cancel reqBase envBase sBase).2.2.countP (isDecisionOf AuditStatus.abort) = 1 ∧
    (cancel reqBase envBase sBase).2.1.status = "workflow_abort" := by
  have h := cancel_manreviewing_cases reqBase envBase sBase 42 "no longer needed" 11 11
    AuditStatus.wait AuditStatus.abort AuditStatus.success AuditStatus.success
    (by decide) (by decide) rfl rfl rfl rfl rfl rfl rfl rfl rfl
  have ha := h.1 rfl
  exact ⟨ha.1, ha.2.2.1⟩

/-- C3: for every cancel on a row not in `workflow_manreviewing` (with the
guards passing and the collaborators succeeding), the Audit Gateway's
decision endpoint is never called, exactly one audit log entry is appended
(operation type 3 "取消执行" for the submitter, otherwise 2 "审批不通过"),
the named scheduled task is removed when the status was
`workflow_timingtask`, and the final status is `workflow_abort`. -/
theorem cancel_past_review (req : Request) (env : Env) (s : WfState)
    (wid : Int) (r : String) (a a2 : Nat) (cs cs2 : AuditStatus)
    (hwid : parseWorkflowId req.workflow_id = some wid) (h0 : wid ≠ 0)
    (hlk : env.lookupOk = true)
    (hrm : req.cancel_remark = some r)
    (hcc : env.canCancel = true)
    (hst : s.status ≠ "workflow_manreviewing")
    (hdet : env.auditDetail1 = Except.ok (a, cs))
    (hdet2 : env.auditDetail2 = Except.ok (a2, cs2))
    (hlog : env.addLogOk = true)
    (hsave : env.saveOk = true) :
    (cancel req env s).2.2.countP isDecision = 0 ∧
    (cancel req env s).2.2.countP isLogEvent = 1 ∧
    (req.username = s.engineer →
      (cancel req env s).2.2.countP (isLogOf 3) = 1) ∧
    (req.username ≠ s.engineer →
      (cancel req env s).2.2.countP (isLogOf 2) = 1) ∧
    (s.status = "workflow_timingtask" →
      Event.delSchedule ("sqlreview-timing-" ++ toString wid) ∈ (cancel req env s).2.2) ∧
    (cancel req env s).2.1.status = "workflow_abort" ∧
    (cancel req env s).1 = Outcome.redirect (toString wid) := by
  have hat := cancelAtomic_log_eq req env s r wid a cs hst hdet hlog hsave
  have hc := cancel_commit_eq req env s wid r a2 cs2 _ _ hwid h0 hlk hrm hcc hdet2 hat
  rw [hc]
  by_cases hsub : req.username = s.engineer <;>
    by_cases hts : s.status = "workflow_timingtask" <;>
      by_cases hcs : cs2 = AuditStatus.abort ∨ cs2 = AuditStatus.reject <;>
        cases hg : isNotified env.notifyPhaseControl "Cancel" <;>
          simp [hg, hcs, hsub, hts, List.countP_cons, List.countP_nil,
            isDecision, isLogEvent, isLogOf]

/-- A concrete row past review (scheduled for timed execution). -/
def sTiming : WfState := { sBase with status := "workflow_timingtask" }

/-- Witness for C3: concrete submitter cancel of a scheduled row appends
one operation-type-3 log entry, removes the named schedule, submits no
decision, and ends in `workflow_abort`. -/
theorem cancel_past_review_witness :
    (cancel reqBase envBase sTiming).2.2.countP isDecision = 0 ∧
    (cancel reqBase envBase sTiming).2.2.countP (isLogOf 3) = 1 ∧
    Event.delSchedule "sqlreview-timing-42" ∈ (cancel reqBase envBase sTiming).2.2 ∧
    (cancel reqBase envBase sTiming).2.1.status = "workflow_abort" := by
  have h := cancel_past_review reqBase envBase sTiming 42 "no longer needed" 11 11
    AuditStatus.wait AuditStatus.abort
    (by decide) (by decide) rfl rfl rfl (by decide) rfl rfl rfl rfl
  exact ⟨h.1, h.2.2.1 rfl, h.2.2.2.2.1 rfl, h.2.2.2.2.2.1⟩

/-- A concrete row that has passed review, submitted by `alice`. -/
def sReviewPass : WfState := { sBase with status := "workflow_review_pass" }

/-- Evaluation of `execute` in auto mode on the guard-passing path. -/
theorem execute_auto_eq (req : Request) (env : Env) (s : WfState)
    (wid : Int) (a : Nat) (cs : AuditStatus)
    (hperm : (req.hasPermSqlExecute || req.hasPermSqlExecuteForResourceGroup) = true)
    (hwid : parseWorkflowId req.workflow_id = some wid) (h0 : wid ≠ 0)
    (hce : env.canExecute = true) (hot : env.onCorrectTimePeriod = true)
    (hdet : env.auditDetail1 = Except.ok (a, cs))
    (hmode : req.mode = some "auto")
    (hsave : env.saveOk = true) (hlog : env.addLogOk = true) :
    execute req env s =
      (Outcome.redirect (toString wid), { s with status := "workflow_queuing" },
       [Event.delSchedule ("sqlreview-timing-" ++ toString wid),
        Event.enqueueExec "sql.utils.execute_sql.execute" wid
          ("sqlreview-execute-" ++ toString wid),
        Event.addLog a 5 "执行工单" "工单执行排队中" req.username req.display]) := by
  unfold execute
  rw [hwid]
  simp [hperm, h0, hce, hot, hdet, hmode, hsave, hlog]

/-- C6: for every `execute` call in auto mode that passes its guards, the
timing-schedule entry named `sqlreview-timing-<workflow_id>` is deleted (a
no-op-safe deletion, whether or not one existed in the registry) before
the execution task is enqueued, the status becomes `workflow_queuing`,
exactly one enqueue call occurs, and exactly one audit log entry with
operation type 5 is appended. -/
theorem execute_auto_behavior (req : Request) (env : Env) (s : WfState)
    (wid : Int) (a : Nat) (cs : AuditStatus)
    (hperm : (req.hasPermSqlExecute || req.hasPermSqlExecuteForResourceGroup) = true)
    (hwid : parseWorkflowId req.workflow_id = some wid) (h0 : wid ≠ 0)
    (hce : env.canExecute = true) (hot : env.onCorrectTimePeriod = true)
    (hdet : env.auditDetail1 = Except.ok (a, cs))
    (hmode : req.mode = some "auto")
    (hsave : env.saveOk = true) (hlog : env.addLogOk = true) :
    execute req env s =
      (Outcome.redirect (toString wid), { s with status := "workflow_queuing" },
       [Event.delSchedule ("sqlreview-timing-" ++ toString wid),
        Event.enqueueExec "sql.utils.execute_sql.execute" wid
          ("sqlreview-execute-" ++ toString wid),
        Event.addLog a 5 "执行工单" "工单执行排队中" req.username req.display]) ∧
    (execute req env s).2.2.countP isEnqueue = 1 ∧
    (execute req env s).2.2.countP (isLogOf 5) = 1 ∧
    (∀ reg, applyReg (execute req env s).2.2 reg =
      reg.filter (fun n => n ≠ "sqlreview-timing-" ++ toString wid)) := by
  have heq := execute_auto_eq req env s wid a cs hperm hwid h0 hce hot hdet hmode hsave hlog
  refine ⟨heq, ?_, ?_, ?_⟩
  · rw [heq]; simp [List.countP_cons, List.countP_nil, isEnqueue]
  · rw [heq]; simp [List.countP_cons, List.countP_nil, isLogOf]
  · intro reg; rw [heq]; simp [applyReg, List.foldl]

/-- Witness for C6: spec scenario A — workflow 42 in `workflow_review_pass`,
execute capability held, window unbounded, mode auto. -/
theorem execute_auto_behavior_witness :
    (execute reqBase envBase sReviewPass).2.1.status = "workflow_queuing" ∧
    (execute reqBase envBase sReviewPass).2.2.countP isEnqueue = 1 ∧
    (execute reqBase envBase sReviewPass).2.2.countP (isLogOf 5) = 1 := by
  have h := execute_auto_behavior reqBase envBase sReviewPass 42 11 AuditStatus.wait
    rfl (by decide) (by decide) rfl rfl rfl rfl rfl rfl
  exact ⟨by rw [h.1], h.2.1, h.2.2.1⟩

/-- Request scheduling a malformed, future-looking run date. -/
def reqBadDate : Request :=
  { reqBase with workflow_id := some "1", run_date := some "9999-99-99 99:99" }

/-- Counterexample to C4: a malformed `run_date` that is not
lexicographically below the now-string passes the pre-transaction string
check, survives the workflow lookup and the authority guard, and then the
call crashes with an unhandled `ValueError` at `strptime` — it is not
rejected with a user-facing message. -/
theorem timing_task_malformed_crash :
    timing_task reqBadDate envBase sReviewPass =
      (Outcome.crash "ValueError", sReviewPass, []) := by
  decide

/-- C4 (amended): `timing_task` rejects with a user-facing message a
`run_date` that is absent or lexicographically below the now-string
(format `"%Y-%m-%d %H:%M:%S"`); a minute-precision `run_date` equal to the
current minute is a proper prefix of the now-string, hence below it and
rejected; but a malformed `run_date` not below the now-string reaches
`strptime` — after the row lookup and authority guard — and crashes with
an unhandled `ValueError` instead of a user-facing message.  In every such
case the state is unchanged and nothing is registered. -/
theorem timing_task_run_date_validation :
    (∀ req env s, (req.hasPermSqlExecute || req.hasPermSqlExecuteForResourceGroup) = true →
      req.run_date = none →
      timing_task req env s = (Outcome.errorPage "时间不能为空", s, [])) ∧
    (∀ req env s r w,
      (req.hasPermSqlExecute || req.hasPermSqlExecuteForResourceGroup) = true →
      req.run_date = some r → req.workflow_id = some w →
      strLt r env.nowStr = true →
      timing_task req env s = (Outcome.errorPage "时间不能小于当前时间", s, [])) ∧
    (∀ req env s r w,
      (req.hasPermSqlExecute || req.hasPermSqlExecuteForResourceGroup) = true →
      req.run_date = some r → req.workflow_id = some w →
      strLt r env.nowStr = false → env.lookupOk = true → env.canTimingtask = true →
      strptimeYmdHM r = none →
      timing_task req env s = (Outcome.crash "ValueError", s, [])) ∧
    (∀ r t : List Char, t ≠ [] → charsLt r (r ++ t) = true) := by
  refine ⟨?_, ?_, ?_, ?_⟩
  · intro req env s hperm hrd
    unfold timing_task
    rw [hrd]
    simp [hperm]
  · intro req env s r w hperm hrd hw hlt
    unfold timing_task
    rw [hrd, hw]
    simp [hperm, hlt]
  · intro req env s r w hperm hrd hw hlt hlk hct hsp
    unfold timing_task
    rw [hrd, hw]
    simp [hperm, hlt, hlk, hct, hsp]
  · intro r t ht
    induction r with
    | nil => cases t with
      | nil => exact absurd rfl ht
      | cons c cs => rfl
    | cons a as ih => simp [charsLt, ih]

/-- Witness for C4 (amended): a run date equal to the current minute is
rejected with the "below current time" message (spec scenario C), and an
absent run date is rejected with the "empty time" message. -/
theorem timing_task_run_date_validation_witness :
    timing_task { reqBase with run_date := some "2026-10-12 00:00" } envBase sReviewPass =
      (Outcome.errorPage "时间不能小于当前时间", sReviewPass, []) ∧
    timing_task { reqBase with run_date := none } envBase sReviewPass =
      (Outcome.errorPage "时间不能为空", sReviewPass, []) := by
  refine ⟨?_, ?_⟩
  · exact timing_task_run_date_validation.2.1 _ envBase sReviewPass
      "2026-10-12 00:00" "42" rfl rfl rfl (by decide)
  · exact timing_task_run_date_validation.1 _ envBase sReviewPass rfl rfl

/-- Request cancelling with an empty-string reason. -/
def reqEmptyReason : Request := { reqBase with cancel_remark := some "" }

/-- Counterexample to C5: a cancel whose supplied reason is the empty
string is not rejected — the guard only checks for an absent field — and
the call proceeds to commit its side effects (a log entry and the
`workflow_abort` status write). -/
theorem cancel_empty_reason_proceeds :
    (cancel reqEmptyReason envBase sReviewPass).1 = Outcome.redirect "42" ∧
    (cancel reqEmptyReason envBase sReviewPass).2.1.status = "workflow_abort" ∧
    (cancel reqEmptyReason envBase sReviewPass).2.2 ≠ [] := by
  decide

/-- C5 (amended): the cancel guard rejects, with a user-facing message and
before any side effect, only an absent cancellation reason (missing form
field); an empty-string reason passes the guard. -/
theorem cancel_rejects_absent_reason (req : Request) (env : Env) (s : WfState) (wid : Int)
    (hwid : parseWorkflowId req.workflow_id = some wid) (h0 : wid ≠ 0)
    (hlk : env.lookupOk = true)
    (hrm : req.cancel_remark = none) :
    cancel req env s = (Outcome.errorPage "终止原因不能为空", s, []) := by
  unfold cancel
  rw [hwid]
  simp [h0, hlk, hrm]

/-- Witness for C5 (amended): a concrete cancel without a reason field is
rejected with the dedicated message and no state change. -/
theorem cancel_rejects_absent_reason_witness :
    cancel { reqBase with cancel_remark := none } envBase sBase =
      (Outcome.errorPage "终止原因不能为空", sBase, []) := by
  exact cancel_rejects_absent_reason _ envBase sBase 42 (by decide) (by decide) rfl rfl

/-- Environment whose timing-task authority guard denies the actor. -/
def envNoTiming : Env := { envBase with canTimingtask := false }

/-- Request scheduling with the workflow_id form value "0". -/
def reqZeroId : Request := { reqBase with workflow_id := some "0" }

/-- Counterexample to C8: a schedule (timing_task) request with
workflow_id "0" is not rejected before guard logic runs — it passes the
input checks, reaches the workflow lookup and fails only at the authority
guard, whose message is returned. -/
theorem timing_task_zero_id_reaches_guard :
    timing_task reqZeroId envNoTiming sReviewPass =
      (Outcome.errorPage "你无权操作当前工单！", sReviewPass, []) := by
  decide

/-- C8 (amended): `passed`, `execute`, `cancel` and `alter_run_date`
reject an absent-or-zero workflow_id before any guard runs and crash with
an unhandled `ValueError` on a non-numeric one; `timing_task` rejects only
an absent workflow_id (zero proceeds to the lookup and guards); and
`osc_control` performs no workflow_id validation at all — it goes straight
to the row lookup, whatever the field holds. -/
theorem workflow_id_validation :
    (∀ req env s, req.hasPermSqlReview = true →
      parseWorkflowId req.workflow_id = some 0 →
      passed req env s = (Outcome.errorPage "workflow_id参数为空.", s, [])) ∧
    (∀ req env s, (req.hasPermSqlExecute || req.hasPermSqlExecuteForResourceGroup) = true →
      parseWorkflowId req.workflow_id = some 0 →
      execute req env s = (Outcome.errorPage "workflow_id参数为空.", s, [])) ∧
    (∀ req env s, parseWorkflowId req.workflow_id = some 0 →
      cancel req env s = (Outcome.errorPage "workflow_id参数为空.", s, [])) ∧
    (∀ req env s, req.hasPermSqlReview = true →
      parseWorkflowId req.workflow_id = some 0 →
      alter_run_date req env s = (Outcome.errorPage "workflow_id参数为空.", s, [])) ∧
    (∀ req env s w, req.hasPermSqlReview = true →
      req.workflow_id = some w → pyInt w = none →
      passed req env s = (Outcome.crash "ValueError", s, [])) ∧
    (∀ req env s r, (req.hasPermSqlExecute || req.hasPermSqlExecuteForResourceGroup) = true →
      req.run_date = some r → req.workflow_id = none →
      timing_task req env s = (Outcome.errorPage "时间不能为空", s, [])) ∧
    (∀ req env s, env.lookupOk = false →
      osc_control req env s = (Outcome.crash "SqlWorkflow.DoesNotExist", s, [])) := by
  refine ⟨?_, ?_, ?_, ?_, ?_, ?_, ?_⟩
  · intro req env s hperm hwid
    unfold passed
    rw [hwid]
    simp [hperm]
  · intro req env s hperm hwid
    unfold execute
    rw [hwid]
    simp [hperm]
  · intro req env s hwid
    unfold cancel
    rw [hwid]
    simp
  · intro req env s hperm hwid
    unfold alter_run_date
    rw [hwid]
    simp [hperm]
  · intro req env s w hperm hw hpi
    unfold passed
    rw [show parseWorkflowId req.workflow_id = none from by rw [hw]; exact hpi]
    simp [hperm]
  · intro req env s r hperm hrd hw
    unfold timing_task
    rw [hrd, hw]
    simp [hperm]
  · intro req env s hlk
    unfold osc_control
    simp [hlk]

/-- Witness for C8 (amended): an absent workflow_id is rejected by
`passed` before any guard, and `osc_control` with the same request reaches
the row lookup (which raises) rather than any validation. -/
theorem workflow_id_validation_witness :
    passed { reqBase with workflow_id := none } envBase sBase =
      (Outcome.errorPage "workflow_id参数为空.", sBase, []) ∧
    osc_control { reqBase with workflow_id := none } { envBase with lookupOk := false } sBase =
      (Outcome.crash "SqlWorkflow.DoesNotExist", sBase, []) := by
  refine ⟨?_, ?_⟩
  · exact workflow_id_validation.1 _ envBase sBase rfl rfl
  · exact workflow_id_validation.2.2.2.2.2.2 _ _ sBase rfl

/-- C7: for approve (`passed`), schedule (`timing_task`) and `cancel`, any
exception raised inside the atomic block rolls back the entire transaction
— the call returns a user-visible error page and nothing is committed —
while a block that does commit always contains the paired writes (a
committed cancel block carries the `workflow_abort` status write; a
committed schedule block carries the status write together with exactly
one log append and exactly one schedule registration, so a log entry is
never committed without its status write); and guard failures (authority,
timing window) short-circuit before any transaction begins, touching no
persisted state and emitting no events. -/
theorem transactional_atomicity :
    (∀ req env s wid msg, req.hasPermSqlReview = true →
      parseWorkflowId req.workflow_id = some wid → wid ≠ 0 → env.canReview = true →
      passedAtomic req env s = Except.error msg →
      passed req env s = (Outcome.errorPage msg, s, [])) ∧
    (∀ req env s wid, req.hasPermSqlReview = true →
      parseWorkflowId req.workflow_id = some wid → wid ≠ 0 → env.canReview = false →
      passed req env s = (Outcome.errorPage "你无权操作当前工单！", s, [])) ∧
    (∀ req env s r w rd msg,
      (req.hasPermSqlExecute || req.hasPermSqlExecuteForResourceGroup) = true →
      req.run_date = some r → req.workflow_id = some w →
      strLt r env.nowStr = false → env.lookupOk = true → env.canTimingtask = true →
      strptimeYmdHM r = some rd → env.onCorrectTimePeriod = true →
      timingTaskAtomic req env s ("sqlreview-timing-" ++ w) rd w = Except.error msg →
      timing_task req env s = (Outcome.errorPage msg, s, [])) ∧
    (∀ req env s r w rd,
      (req.hasPermSqlExecute || req.hasPermSqlExecuteForResourceGroup) = true →
      req.run_date = some r → req.workflow_id = some w →
      strLt r env.nowStr = false → env.lookupOk = true → env.canTimingtask = true →
      strptimeYmdHM r = some rd → env.onCorrectTimePeriod = false →
      timing_task req env s =
        (Outcome.errorPage "不在可执行时间范围内，如果需要修改执    行时间请重新提交工单!", s, [])) ∧
    (∀ req env s wid r msg, parseWorkflowId req.workflow_id = some wid → wid ≠ 0 →
      env.lookupOk = true → req.cancel_remark = some r → env.canCancel = true →
      cancelAtomic req env s r wid = Except.error msg →
      cancel req env s = (Outcome.errorPage msg, s, [])) ∧
    (∀ req env s wid r, parseWorkflowId req.workflow_id = some wid → wid ≠ 0 →
      env.lookupOk = true → req.cancel_remark = some r → env.canCancel = false →
      cancel req env s = (Outcome.errorPage "你无权操作当前工单！", s, [])) ∧
    (∀ req env s r wid s2 evs, cancelAtomic req env s r wid = Except.ok (s2, evs) →
      s2.status = "workflow_abort") ∧
    (∀ req env s n rd w s2 evs, timingTaskAtomic req env s n rd w = Except.ok (s2, evs) →
      s2.status = "workflow_timingtask" ∧ evs.countP isLogEvent = 1 ∧
      evs.countP isAddSchedule = 1) := by
  refine ⟨?_, ?_, ?_, ?_, ?_, ?_, ?_, ?_⟩
  · intro req env s wid msg hperm hwid h0 hcr hat
    unfold passed
    rw [hwid]
    simp [hperm, h0, hcr, hat]
  · intro req env s wid hperm hwid h0 hcr
    unfold passed
    rw [hwid]
    simp [hperm, h0, hcr]
  · intro req env s r w rd msg hperm hrd hw hlt hlk hct hsp hot hat
    unfold timing_task
    rw [hrd, hw]
    simp [hperm, hlt, hlk, hct, hsp, hot, hat]
  · intro req env s r w rd hperm hrd hw hlt hlk hct hsp hot
    unfold timing_task
    rw [hrd, hw]
    simp [hperm, hlt, hlk, hct, hsp, hot]
  · intro req env s wid r msg hwid h0 hlk hrm hcc hat
    exact cancel_rollback_eq req env s wid r msg hwid h0 hlk hrm hcc hat
  · intro req env s wid r hwid h0 hlk hrm hcc
    unfold cancel
    rw [hwid]
    simp [h0, hlk, hrm, hcc]
  · intro req env s r wid s2 evs h
    unfold cancelAtomic at h
    cases hdet : env.auditDetail1 <;> rw [hdet] at h
    · simp [Except.bind, bind] at h
    · by_cases h1 : s.status = "workflow_manreviewing" <;>
        by_cases h2 : req.username = s.engineer <;>
          by_cases h3 : env.addLogOk = true <;>
            by_cases h4 : req.hasPermSqlReview = true <;>
              by_cases h5 : env.saveOk = false <;>
                by_cases h6 : s.status = "workflow_timingtask" <;>
                  cases hca : env.auditCall AuditStatus.abort <;>
                    cases hcr : env.auditCall AuditStatus.reject <;>
                      simp_all [Except.bind, bind, pure, Except.pure] <;>
                        (obtain ⟨h7, h8⟩ := h; subst h7; rfl)
  · intro req env s n rd w s2 evs h
    unfold timingTaskAtomic at h
    cases hdet : env.auditDetail1 <;> rw [hdet] at h <;>
      by_cases h1 : env.saveOk = false <;>
        by_cases h2 : env.addScheduleOk = false <;>
          by_cases h3 : env.addLogOk = false <;>
            simp_all [Except.bind, bind, pure, Except.pure] <;>
              (obtain ⟨h7, h8⟩ := h; subst h7; subst h8;
               exact ⟨rfl, by simp [List.countP_cons, isLogEvent, isAddSchedule]⟩)

/-- Environment whose audit-gateway detail lookup raises. -/
def envDetFail : Env := { envBase with auditDetail1 := Except.error "audit gateway down" }

/-- Witness for C7: a concrete approve call whose atomic block raises at
the audit-detail fetch returns the error page with nothing committed. -/
theorem transactional_atomicity_witness :
    passed reqBase envDetFail sBase = (Outcome.errorPage "audit gateway down", sBase, []) := by
  exact transactional_atomicity.1 reqBase envDetFail sBase 42 "audit gateway down"
    rfl (by decide) (by decide) rfl rfl

end Archery
